import Mathlib

/-!
Verification of the `AwsResources` resource cache (saws/resources.py).

The module keeps four resource collections (instance ids, instance tag keys,
instance tag values, bucket names), persists them to a marker-delimited text
file, reloads them from that file, and refreshes them from provider commands
whose failures are isolated per category.

Embedding conventions:
* a file's content and a command's raw output are `String`s;
* a command invocation that may raise is an `Option String` (`none` = the
  subprocess raised, `some out` = it succeeded with stdout `out`);
* a Python `set` built from strings is represented by the `List String` that
  enumerates it in iteration order; claims comparing sets as sets use
  `List.toFinset` equality, so the (arbitrary) order never matters;
* Python string helpers (`strip`, `split`, `in`, `re.sub`) are modelled
  character-exactly below.
-/

namespace Saws

/-- Characters treated as whitespace by Python `str.strip()` / `str.split()`
(ASCII range). -/
def pySpace (c : Char) : Bool :=
  c == ' ' || c == '\t' || c == '\n' || c == '\r' || c == '\x0b' || c == '\x0c'

/-- Python `line.strip() == ''`: every character of the string is whitespace. -/
def pyBlank (s : String) : Bool :=
  s.data.all pySpace

/-- Whether `pat` occurs at the head of `l`. -/
def leadsWith : List Char → List Char → Bool
  | [], _ => true
  | _ :: _, [] => false
  | a :: as, b :: bs => a == b && leadsWith as bs

/-- Whether `pat` occurs as a contiguous sublist of `l`. -/
def occursIn (pat : List Char) : List Char → Bool
  | [] => pat.isEmpty
  | b :: bs => leadsWith pat (b :: bs) || occursIn pat bs

/-- Python `pat in s` for strings: substring containment. -/
def pyContains (s pat : String) : Bool :=
  occursIn pat.data s.data

/-- Python `re.sub('\n', '', line)`: delete every newline character. -/
def removeNewlines (s : String) : String :=
  String.mk (s.data.filter (fun c => c != '\n'))

/-- Python `re.sub('\n', ' ', s)`: replace every newline by a space. -/
def newlinesToSpaces (s : String) : String :=
  String.mk (s.data.map (fun c => if c == '\n' then ' ' else c))

/-- Python `s.split()` (no argument): split on runs of whitespace, dropping
empty tokens. -/
def pySplit (s : String) : List String :=
  ((s.data.splitOnP pySpace).filter (fun l => !l.isEmpty)).map String.mk

/-- Python `s.split(sep)` for a single-character separator: split on each
occurrence of `sep`, keeping empty chunks. -/
def pySplitOn (s : String) (sep : Char) : List String :=
  (s.data.splitOn sep).map String.mk

/-- The lines a Python `for line in fp` iteration yields, after the trailing
newline of each line is removed (splitting the file content on newlines). -/
def splitLines (s : String) : List String :=
  (s.data.splitOn '\n').map String.mk

/-- Marker starting the instance-ids section of data/RESOURCES.txt. -/
def INSTANCE_IDS_MARKER : String := "[instance ids]"

/-- Marker starting the instance-tag-keys section of data/RESOURCES.txt. -/
def INSTANCE_TAG_KEYS_MARKER : String := "[instance tag keys]"

/-- Marker starting the instance-tag-values section of data/RESOURCES.txt. -/
def INSTANCE_TAG_VALUES_MARKER : String := "[instance tag values]"

/-- Marker starting the bucket-names section of data/RESOURCES.txt. -/
def BUCKET_NAMES_MARKER : String := "[bucket names]"

/-- State of an `AwsResources` object: the four collections and the three
refresh flags.  `instance_tag_keys` and `instance_tag_values` are Python sets,
represented by their iteration-order enumeration. -/
structure AwsResources where
  instance_ids : List String
  instance_tag_keys : List String
  instance_tag_values : List String
  bucket_names : List String
  refresh_instance_ids : Bool
  refresh_instance_tags : Bool
  refresh_bucket_names : Bool
deriving DecidableEq, Repr

/-- The `ResType` enum local to `refresh_resources_from_file`. -/
inductive ResType where
  | INSTANCE_IDS
  | INSTANCE_TAG_KEYS
  | INSTANCE_TAG_VALUES
  | BUCKET_NAMES
deriving DecidableEq, Repr

/-- Loop state of `refresh_resources_from_file`: the section cursor, the two
collections appended to directly, and the two local accumulation lists. -/
structure ParseState where
  res_type : ResType
  instance_ids : List String
  instance_tag_keys_list : List String
  instance_tag_values_list : List String
  bucket_names : List String
deriving DecidableEq, Repr

/-- State at the top of the read loop: cursor `INSTANCE_IDS`, all
accumulators reset to empty. -/
def initParseState : ParseState :=
  ⟨ResType.INSTANCE_IDS, [], [], [], []⟩

/-- Body of the `for line in fp` loop of `refresh_resources_from_file`:
strip newlines, skip blank lines, switch the cursor on a line containing a
marker, otherwise append the line to the current cursor's collection. -/
def processLine (st : ParseState) (line0 : String) : ParseState :=
  let line := removeNewlines line0
  if pyBlank line then st
  else if pyContains line INSTANCE_IDS_MARKER then
    { st with res_type := ResType.INSTANCE_IDS }
  else if pyContains line INSTANCE_TAG_KEYS_MARKER then
    { st with res_type := ResType.INSTANCE_TAG_KEYS }
  else if pyContains line INSTANCE_TAG_VALUES_MARKER then
    { st with res_type := ResType.INSTANCE_TAG_VALUES }
  else if pyContains line BUCKET_NAMES_MARKER then
    { st with res_type := ResType.BUCKET_NAMES }
  else
    match st.res_type with
    | ResType.INSTANCE_IDS =>
        { st with instance_ids := st.instance_ids ++ [line] }
    | ResType.INSTANCE_TAG_KEYS =>
        { st with instance_tag_keys_list := st.instance_tag_keys_list ++ [line] }
    | ResType.INSTANCE_TAG_VALUES =>
        { st with instance_tag_values_list := st.instance_tag_values_list ++ [line] }
    | ResType.BUCKET_NAMES =>
        { st with bucket_names := st.bucket_names ++ [line] }

/-- `AwsResources.refresh_resources_from_file` on the content of a readable
file: run the read loop over all lines, then replace the four collections
(the tag accumulation lists are converted to sets, i.e. deduplicated). -/
def refresh_resources_from_file (self : AwsResources) (content : String) :
    AwsResources :=
  let final := (splitLines content).foldl processLine initParseState
  { self with
    instance_ids := final.instance_ids
    instance_tag_keys := final.instance_tag_keys_list.dedup
    instance_tag_values := final.instance_tag_values_list.dedup
    bucket_names := final.bucket_names }

/-- Each entry of the list followed by a newline, concatenated: the effect of
the per-entry `fp.write(entry + '\n')` loops in `save_resources_to_file`. -/
def writeLinesOf (l : List String) : String :=
  String.join (l.map (fun x => x ++ "\n"))

/-- `AwsResources.save_resources_to_file`: the exact file content written,
marker line then one line per entry, for the four sections in fixed order. -/
def save_resources_to_file (self : AwsResources) : String :=
  INSTANCE_IDS_MARKER ++ "\n" ++ writeLinesOf self.instance_ids
    ++ INSTANCE_TAG_KEYS_MARKER ++ "\n" ++ writeLinesOf self.instance_tag_keys
    ++ INSTANCE_TAG_VALUES_MARKER ++ "\n" ++ writeLinesOf self.instance_tag_values
    ++ BUCKET_NAMES_MARKER ++ "\n" ++ writeLinesOf self.bucket_names

/-- Parsing step of `query_instance_ids` on the raw command output:
`re.sub('\n', ' ', result)` then `result.split()`. -/
def parse_instance_ids_output (result : String) : List String :=
  pySplit (newlinesToSpaces result)

/-- `AwsResources.query_instance_ids`: on command success replace
`instance_ids` with the parsed output; on an exception leave state unchanged. -/
def query_instance_ids (self : AwsResources) (output : Option String) :
    AwsResources :=
  match output with
  | some result => { self with instance_ids := parse_instance_ids_output result }
  | none => self

/-- Parsing step shared by `query_instance_tag_keys` and
`query_instance_tag_values`: `set(result.split('\t'))`, as the deduplicated
list of tab-separated chunks. -/
def parse_tag_output (result : String) : List String :=
  (pySplitOn result '\t').dedup

/-- `AwsResources.query_instance_tag_keys`: on command success replace
`instance_tag_keys` with the tab-split output as a set; on an exception leave
state unchanged. -/
def query_instance_tag_keys (self : AwsResources) (output : Option String) :
    AwsResources :=
  match output with
  | some result => { self with instance_tag_keys := parse_tag_output result }
  | none => self

/-- `AwsResources.query_instance_tag_values`: on command success replace
`instance_tag_values` with the tab-split output as a set; on an exception
leave state unchanged. -/
def query_instance_tag_values (self : AwsResources) (output : Option String) :
    AwsResources :=
  match output with
  | some result => { self with instance_tag_values := parse_tag_output result }
  | none => self

/-- Python `result.split()[-1]` guarded by the bare `except`: the last
whitespace-delimited token of the line, or `none` when there is no token
(which the code silently skips). -/
def lastToken (line : String) : Option String :=
  (pySplit line).getLast?

/-- Parsing loop of `query_bucket_names` on the raw command output: split on
newlines, append the last token of each line, skipping lines with none. -/
def parse_bucket_names_output (output : String) : List String :=
  (pySplitOn output '\n').foldl
    (fun acc line =>
      match lastToken line with
      | some tok => acc ++ [tok]
      | none => acc)
    []

/-- `AwsResources.query_bucket_names`: on command success reset
`bucket_names` and rebuild it from the output; on an exception of the command
itself leave state unchanged. -/
def query_bucket_names (self : AwsResources) (output : Option String) :
    AwsResources :=
  match output with
  | some out => { self with bucket_names := parse_bucket_names_output out }
  | none => self

/-- Environment a `refresh` call runs in: the cache file's content (`none` =
opening it raises `IOError`) and the outcome of each provider command. -/
structure Env where
  cache_file : Option String
  ids_output : Option String
  tag_keys_output : Option String
  tag_values_output : Option String
  bucket_names_output : Option String

/-- The query block of `refresh` (under `if force_refresh:`): each enabled
category is queried, in the fixed order ids, tag keys, tag values, buckets. -/
def run_queries (self : AwsResources) (env : Env) : AwsResources :=
  let s1 := if self.refresh_instance_ids then
      query_instance_ids self env.ids_output
    else self
  let s2 := if s1.refresh_instance_tags then
      query_instance_tag_values (query_instance_tag_keys s1 env.tag_keys_output)
        env.tag_values_output
    else s1
  let s3 := if s2.refresh_bucket_names then
      query_bucket_names s2 env.bucket_names_output
    else s2
  s3

/-- `AwsResources.refresh`: unless forced, try the cache file; on success use
it and run no query, on `IOError` fall through to a live refresh.  The final
`save_resources_to_file` writes `save_resources_to_file` of the returned
state (a write failure is logged and changes nothing in memory). -/
def refresh (self : AwsResources) (env : Env) (force_refresh : Bool) :
    AwsResources :=
  match force_refresh, env.cache_file with
  | false, some content => refresh_resources_from_file self content
  | false, none => run_queries self env
  | true, _ => run_queries self env

/-- Entries that fit on a single cache-file line: no embedded newline. -/
def noNewline (s : String) : Bool :=
  s.data.all (fun c => c != '\n')

/-- Whether the read loop treats a (stripped) line as a section marker: it
contains one of the four marker strings as a substring. -/
def isMarkerLine (s : String) : Bool :=
  pyContains s INSTANCE_IDS_MARKER || pyContains s INSTANCE_TAG_KEYS_MARKER ||
    pyContains s INSTANCE_TAG_VALUES_MARKER || pyContains s BUCKET_NAMES_MARKER

/-- An entry the cache round trip keeps intact: newline-free, not
whitespace-only, and containing no section marker. -/
def cleanEntry (s : String) : Bool :=
  noNewline s && !pyBlank s && !isMarkerLine s

/-- The cursor the read loop switches to on this line, or `none` when the
line contains no marker; priority follows the source's elif chain. -/
def markerTarget (line : String) : Option ResType :=
  if pyContains line INSTANCE_IDS_MARKER then some ResType.INSTANCE_IDS
  else if pyContains line INSTANCE_TAG_KEYS_MARKER then some ResType.INSTANCE_TAG_KEYS
  else if pyContains line INSTANCE_TAG_VALUES_MARKER then some ResType.INSTANCE_TAG_VALUES
  else if pyContains line BUCKET_NAMES_MARKER then some ResType.BUCKET_NAMES
  else none

/-- The data branch of the read loop: append the (already stripped) line to
the collection selected by the current cursor. -/
def appendData (st : ParseState) (line : String) : ParseState :=
  match st.res_type with
  | ResType.INSTANCE_IDS =>
      { st with instance_ids := st.instance_ids ++ [line] }
  | ResType.INSTANCE_TAG_KEYS =>
      { st with instance_tag_keys_list := st.instance_tag_keys_list ++ [line] }
  | ResType.INSTANCE_TAG_VALUES =>
      { st with instance_tag_values_list := st.instance_tag_values_list ++ [line] }
  | ResType.BUCKET_NAMES =>
      { st with bucket_names := st.bucket_names ++ [line] }

/-- The logical lines `save_resources_to_file` writes, in order. -/
def saveLines (self : AwsResources) : List String :=
  [INSTANCE_IDS_MARKER] ++ self.instance_ids
    ++ [INSTANCE_TAG_KEYS_MARKER] ++ self.instance_tag_keys
    ++ [INSTANCE_TAG_VALUES_MARKER] ++ self.instance_tag_values
    ++ [BUCKET_NAMES_MARKER] ++ self.bucket_names

/-- Character stream of a list of lines, each terminated by a newline. -/
def joinLines : List (List Char) → List Char
  | [] => []
  | x :: xs => x ++ '\n' :: joinLines xs

/-- The stripped non-blank lines of a block of lines, in order: exactly the
data lines the read loop appends when no marker intervenes. -/
def cleanLines (l : List String) : List String :=
  (l.map removeNewlines).filter (fun s => !pyBlank s)

/-- Printable ASCII strings: every character between space and tilde. -/
def printable (s : String) : Bool :=
  s.data.all (fun c => 32 ≤ c.toNat && c.toNat ≤ 126)

/-- Concrete well-behaved store, used as witness input. -/
def exStore : AwsResources :=
  ⟨["i-1"], ["env"], ["prod"], ["b-1"], true, true, true⟩

/-- Concrete store whose instance id is itself a marker string: the
round-trip counterexample input. -/
def exMarkerId : AwsResources :=
  ⟨["[bucket names]"], [], [], ["b-1"], true, true, true⟩

/-- Concrete cache-file content with the tag-keys and tag-values markers
absent, used as witness input. -/
def exContent : String :=
  "i-1\n\n[bucket names]\nb-old\n"

/-- Concrete environment with a readable cache file, used as witness input. -/
def exEnvCache : Env :=
  ⟨some exContent, some "i-9\n", some "k\tv\n", some "k\tv\n", some "x b-9"⟩

/-- Concrete environment for a forced refresh with a bucket stub returning
`b-new`, used as witness input. -/
def exEnvForce : Env :=
  ⟨some exContent, none, none, none, some "b-new"⟩

/-- Concrete environment in which the tag-keys command raises but the
instance-ids and bucket-names commands succeed, used as witness input. -/
def exEnvPartial : Env :=
  ⟨none, some "i-1\ni-2\n", none, some "Name\tenv\n", some "2026-01-01 b-new"⟩

/-! ### String and line-splitting lemmas -/

theorem data_append (a b : String) : (a ++ b).data = a.data ++ b.data := rfl

theorem mk_data (s : String) : String.mk s.data = s := rfl

theorem joinLines_append (a b : List (List Char)) :
    joinLines (a ++ b) = joinLines a ++ joinLines b := by
  induction a with
  | nil => rfl
  | cons x xs ih => simp [joinLines, ih]

theorem foldl_append_data (l : List String) (s : String) :
    (l.foldl (· ++ ·) s).data = s.data ++ (l.map String.data).flatten := by
  induction l generalizing s with
  | nil => simp
  | cons x xs ih => simp [ih, data_append]

theorem writeLinesOf_data (l : List String) :
    (writeLinesOf l).data = joinLines (l.map String.data) := by
  rw [writeLinesOf, String.join, foldl_append_data]
  induction l with
  | nil => rfl
  | cons x xs ih =>
      simp only [List.map_map, List.map_cons, List.flatten_cons, joinLines] at *
      rw [← ih]
      simp [data_append]

theorem save_data (self : AwsResources) :
    (save_resources_to_file self).data =
      joinLines ((saveLines self).map String.data) := by
  simp [save_resources_to_file, saveLines, data_append, writeLinesOf_data,
    joinLines_append, joinLines]

/-- Splitting at an explicit separator splits the surrounding chunks
independently. -/
theorem splitOnP_append_sep {α : Type} (p : α → Bool) (sep : α)
    (hsep : p sep = true) (as bs : List α) :
    (as ++ sep :: bs).splitOnP p = as.splitOnP p ++ bs.splitOnP p := by
  induction as with
  | nil => simp [hsep]
  | cons a as ih =>
      by_cases h : p a
      · simp [List.splitOnP_cons, h, ih]
      · simp only [List.cons_append, List.splitOnP_cons, h, if_neg,
          Bool.false_eq_true, not_false_iff, ih]
        rcases hs : as.splitOnP p with _ | ⟨hd, tl⟩
        · exact absurd hs (List.splitOnP_ne_nil p as)
        · simp [List.modifyHead]

/-- No chunk produced by `splitOnP` contains an element the split is on. -/
theorem splitOnP_chunk {α : Type} (p : α → Bool) (as : List α) :
    ∀ l ∈ as.splitOnP p, ∀ c ∈ l, p c = false := by
  induction as with
  | nil =>
      intro l hl c hc
      simp only [List.splitOnP_nil, List.mem_singleton] at hl
      subst hl
      simp at hc
  | cons a as ih =>
      intro l hl c hc
      by_cases h : p a
      · rw [List.splitOnP_cons, if_pos h] at hl
        rcases List.mem_cons.mp hl with h1 | h1
        · subst h1; simp at hc
        · exact ih l h1 c hc
      · rw [List.splitOnP_cons, if_neg h] at hl
        rcases hs : as.splitOnP p with _ | ⟨hd, tl⟩
        · exact absurd hs (List.splitOnP_ne_nil p as)
        · rw [hs] at hl
          simp only [List.modifyHead, List.mem_cons] at hl
          rcases hl with h1 | h1
          · subst h1
            rcases List.mem_cons.mp hc with h2 | h2
            · subst h2; exact Bool.eq_false_iff.mpr h
            · exact ih hd (hs ▸ List.mem_cons_self hd tl) c h2
          · exact ih l (hs ▸ List.mem_cons_of_mem hd h1) c hc

/-- Every line produced by splitting a file's content is newline-free. -/
theorem splitLines_noNewline (content : String) :
    ∀ l ∈ splitLines content, noNewline l = true := by
  intro l hl
  simp only [splitLines, List.mem_map] at hl
  obtain ⟨chunk, hchunk, rfl⟩ := hl
  have := splitOnP_chunk (· == '\n') content.data chunk hchunk
  simp only [noNewline, List.all_eq_true]
  intro c hc
  simpa using this c hc

/-! ### Read-loop lemmas -/

theorem removeNewlines_id (s : String) (h : noNewline s = true) :
    removeNewlines s = s := by
  simp only [noNewline, List.all_eq_true] at h
  simp only [removeNewlines]
  rw [List.filter_eq_self.mpr h, mk_data]

theorem cleanEntry_parts (line : String) (h : cleanEntry line = true) :
    noNewline line = true ∧ pyBlank line = false ∧
      pyContains line INSTANCE_IDS_MARKER = false ∧
      pyContains line INSTANCE_TAG_KEYS_MARKER = false ∧
      pyContains line INSTANCE_TAG_VALUES_MARKER = false ∧
      pyContains line BUCKET_NAMES_MARKER = false := by
  simp only [cleanEntry, isMarkerLine, Bool.and_eq_true, Bool.not_eq_true',
    Bool.or_eq_false_iff] at h
  tauto

theorem processLine_clean (st : ParseState) (line : String)
    (h : cleanEntry line = true) :
    processLine st line = appendData st line := by
  obtain ⟨h1, h2, h3, h4, h5, h6⟩ := cleanEntry_parts line h
  simp only [processLine, removeNewlines_id line h1, h2, h3, h4, h5, h6,
    Bool.false_eq_true, if_false, appendData]

theorem foldl_clean_ids (lines : List String) (st : ParseState)
    (h : ∀ l ∈ lines, cleanEntry l = true)
    (ht : st.res_type = ResType.INSTANCE_IDS) :
    lines.foldl processLine st = { st with instance_ids := st.instance_ids ++ lines } := by
  induction lines generalizing st with
  | nil => simp
  | cons x xs ih =>
      rw [List.foldl_cons, processLine_clean st x (h x (List.mem_cons_self x xs))]
      have hx : appendData st x = { st with instance_ids := st.instance_ids ++ [x] } := by
        simp [appendData, ht]
      rw [hx, ih { st with instance_ids := st.instance_ids ++ [x] }
        (fun l hl => h l (List.mem_cons_of_mem x hl)) ht]
      simp

theorem foldl_clean_keys (lines : List String) (st : ParseState)
    (h : ∀ l ∈ lines, cleanEntry l = true)
    (ht : st.res_type = ResType.INSTANCE_TAG_KEYS) :
    lines.foldl processLine st =
      { st with instance_tag_keys_list := st.instance_tag_keys_list ++ lines } := by
  induction lines generalizing st with
  | nil => simp
  | cons x xs ih =>
      rw [List.foldl_cons, processLine_clean st x (h x (List.mem_cons_self x xs))]
      have hx : appendData st x =
          { st with instance_tag_keys_list := st.instance_tag_keys_list ++ [x] } := by
        simp [appendData, ht]
      rw [hx, ih { st with instance_tag_keys_list := st.instance_tag_keys_list ++ [x] }
        (fun l hl => h l (List.mem_cons_of_mem x hl)) ht]
      simp

theorem foldl_clean_values (lines : List String) (st : ParseState)
    (h : ∀ l ∈ lines, cleanEntry l = true)
    (ht : st.res_type = ResType.INSTANCE_TAG_VALUES) :
    lines.foldl processLine st =
      { st with instance_tag_values_list := st.instance_tag_values_list ++ lines } := by
  induction lines generalizing st with
  | nil => simp
  | cons x xs ih =>
      rw [List.foldl_cons, processLine_clean st x (h x (List.mem_cons_self x xs))]
      have hx : appendData st x =
          { st with instance_tag_values_list := st.instance_tag_values_list ++ [x] } := by
        simp [appendData, ht]
      rw [hx, ih { st with instance_tag_values_list := st.instance_tag_values_list ++ [x] }
        (fun l hl => h l (List.mem_cons_of_mem x hl)) ht]
      simp

theorem foldl_clean_buckets (lines : List String) (st : ParseState)
    (h : ∀ l ∈ lines, cleanEntry l = true)
    (ht : st.res_type = ResType.BUCKET_NAMES) :
    lines.foldl processLine st =
      { st with bucket_names := st.bucket_names ++ lines } := by
  induction lines generalizing st with
  | nil => simp
  | cons x xs ih =>
      rw [List.foldl_cons, processLine_clean st x (h x (List.mem_cons_self x xs))]
      have hx : appendData st x = { st with bucket_names := st.bucket_names ++ [x] } := by
        simp [appendData, ht]
      rw [hx, ih { st with bucket_names := st.bucket_names ++ [x] }
        (fun l hl => h l (List.mem_cons_of_mem x hl)) ht]
      simp

theorem processLine_marker_ids (st : ParseState) :
    processLine st INSTANCE_IDS_MARKER = { st with res_type := ResType.INSTANCE_IDS } := rfl

theorem processLine_marker_keys (st : ParseState) :
    processLine st INSTANCE_TAG_KEYS_MARKER =
      { st with res_type := ResType.INSTANCE_TAG_KEYS } := rfl

theorem processLine_marker_values (st : ParseState) :
    processLine st INSTANCE_TAG_VALUES_MARKER =
      { st with res_type := ResType.INSTANCE_TAG_VALUES } := rfl

theorem processLine_marker_buckets (st : ParseState) :
    processLine st BUCKET_NAMES_MARKER =
      { st with res_type := ResType.BUCKET_NAMES } := rfl

theorem processLine_empty (st : ParseState) : processLine st "" = st := rfl

/-- Splitting the newline-joined lines on newlines recovers the lines, plus
the final empty chunk produced by the trailing newline, provided no line
contains a newline itself. -/
theorem joinLines_splitOn (lines : List (List Char))
    (h : ∀ l ∈ lines, ∀ c ∈ l, (c == '\n') = false) :
    (joinLines lines).splitOn '\n' = lines ++ [[]] := by
  induction lines with
  | nil => simp [joinLines]
  | cons x xs ih =>
      have hx : ∀ c ∈ x, ¬((c == '\n') = true) := by
        intro c hc
        simp [h x (List.mem_cons_self x xs) c hc]
      have step := List.splitOnP_first (· == '\n') x hx '\n' (by simp) (joinLines xs)
      have ihx := ih (fun l hl c hc => h l (List.mem_cons_of_mem x hl) c hc)
      simp only [List.splitOn] at ihx ⊢
      rw [joinLines, step, ihx]
      rfl

/-- The lines of the file `save_resources_to_file` writes are exactly the
logical save lines followed by one empty chunk, when every entry is
newline-free. -/
theorem splitLines_save (self : AwsResources)
    (h : ∀ l ∈ saveLines self, noNewline l = true) :
    splitLines (save_resources_to_file self) = saveLines self ++ [""] := by
  have hnl : ∀ l ∈ (saveLines self).map String.data, ∀ c ∈ l, (c == '\n') = false := by
    intro l hl c hc
    simp only [List.mem_map] at hl
    obtain ⟨s, hs, rfl⟩ := hl
    have hs' := h s hs
    simp only [noNewline, List.all_eq_true] at hs'
    simpa using hs' c hc
  rw [splitLines, save_data, joinLines_splitOn _ hnl]
  simp only [List.map_append, List.map_map, List.map_cons, List.map_nil]
  rw [show (String.mk ∘ String.data) = id from funext fun s => mk_data s, List.map_id]

/-- Running the read loop over the saved line list recovers each section in
the matching accumulator, ending with the cursor on bucket names. -/
theorem foldl_saveLines (self : AwsResources)
    (h1 : ∀ l ∈ self.instance_ids, cleanEntry l = true)
    (h2 : ∀ l ∈ self.instance_tag_keys, cleanEntry l = true)
    (h3 : ∀ l ∈ self.instance_tag_values, cleanEntry l = true)
    (h4 : ∀ l ∈ self.bucket_names, cleanEntry l = true) :
    (saveLines self ++ [""]).foldl processLine initParseState =
      ⟨ResType.BUCKET_NAMES, self.instance_ids, self.instance_tag_keys,
        self.instance_tag_values, self.bucket_names⟩ := by
  simp only [saveLines, List.append_assoc, List.foldl_append, List.foldl_cons,
    List.foldl_nil]
  rw [processLine_marker_ids, foldl_clean_ids self.instance_ids _ h1 rfl,
    processLine_marker_keys, foldl_clean_keys self.instance_tag_keys _ h2 rfl,
    processLine_marker_values, foldl_clean_values self.instance_tag_values _ h3 rfl,
    processLine_marker_buckets, foldl_clean_buckets self.bucket_names _ h4 rfl,
    processLine_empty]
  rfl

theorem dedup_toFinset (l : List String) : l.dedup.toFinset = l.toFinset := by
  ext a
  simp [List.mem_toFinset, List.mem_dedup]

theorem data_newline : ("\n" : String).data = ['\n'] := rfl

/-- The chunks of the character stream written by a per-entry write loop,
followed by anything, are some chunk block followed by the chunks of the
rest: every entry line ends in its own newline separator. -/
theorem writeLinesOf_splitOnP (l : List String) (tail : List Char) :
    ∃ A, ((writeLinesOf l).data ++ tail).splitOnP (· == '\n') =
      A ++ tail.splitOnP (· == '\n') := by
  induction l with
  | nil => exact ⟨[], rfl⟩
  | cons x xs ih =>
      obtain ⟨A, hA⟩ := ih
      refine ⟨x.data.splitOnP (· == '\n') ++ A, ?_⟩
      have hshape : (writeLinesOf (x :: xs)).data ++ tail =
          x.data ++ '\n' :: ((writeLinesOf xs).data ++ tail) := by
        simp [writeLinesOf_data, joinLines, List.append_assoc]
      rw [hshape, splitOnP_append_sep _ '\n' (by simp), hA, List.append_assoc]

/-- Whatever the collections hold — entries may even contain embedded
newlines — the saved file always splits into the four marker sections, in
fixed order. -/
theorem save_four_sections (self : AwsResources) :
    ∃ A B C D, splitLines (save_resources_to_file self) =
      [INSTANCE_IDS_MARKER] ++ A ++ [INSTANCE_TAG_KEYS_MARKER] ++ B
        ++ [INSTANCE_TAG_VALUES_MARKER] ++ C ++ [BUCKET_NAMES_MARKER] ++ D := by
  have key : ∀ (m : String) (rest : List Char),
      (∀ c ∈ m.data, ¬((c == '\n') = true)) →
      (m.data ++ '\n' :: rest).splitOnP (· == '\n') =
        m.data :: rest.splitOnP (· == '\n') := fun m rest hm =>
    List.splitOnP_first (· == '\n') m.data hm '\n' (by simp) rest
  obtain ⟨C0, hC0⟩ := writeLinesOf_splitOnP self.instance_tag_values
    (BUCKET_NAMES_MARKER.data ++ '\n' :: (writeLinesOf self.bucket_names).data)
  obtain ⟨B0, hB0⟩ := writeLinesOf_splitOnP self.instance_tag_keys
    (INSTANCE_TAG_VALUES_MARKER.data ++ '\n' ::
      ((writeLinesOf self.instance_tag_values).data ++
        (BUCKET_NAMES_MARKER.data ++ '\n' :: (writeLinesOf self.bucket_names).data)))
  obtain ⟨A0, hA0⟩ := writeLinesOf_splitOnP self.instance_ids
    (INSTANCE_TAG_KEYS_MARKER.data ++ '\n' ::
      ((writeLinesOf self.instance_tag_keys).data ++
        (INSTANCE_TAG_VALUES_MARKER.data ++ '\n' ::
          ((writeLinesOf self.instance_tag_values).data ++
            (BUCKET_NAMES_MARKER.data ++ '\n' ::
              (writeLinesOf self.bucket_names).data)))))
  have hdata : (save_resources_to_file self).data =
      INSTANCE_IDS_MARKER.data ++ '\n' ::
        ((writeLinesOf self.instance_ids).data ++
          (INSTANCE_TAG_KEYS_MARKER.data ++ '\n' ::
            ((writeLinesOf self.instance_tag_keys).data ++
              (INSTANCE_TAG_VALUES_MARKER.data ++ '\n' ::
                ((writeLinesOf self.instance_tag_values).data ++
                  (BUCKET_NAMES_MARKER.data ++ '\n' ::
                    (writeLinesOf self.bucket_names).data)))))) := by
    simp [save_resources_to_file, data_append, data_newline, List.append_assoc]
  refine ⟨A0.map String.mk, B0.map String.mk, C0.map String.mk,
    ((writeLinesOf self.bucket_names).data.splitOnP (· == '\n')).map String.mk, ?_⟩
  rw [splitLines, List.splitOn, hdata, key _ _ (by decide), hA0, key _ _ (by decide),
    hB0, key _ _ (by decide), hC0, key _ _ (by decide)]
  simp [List.map_append, mk_data, List.append_assoc]

/-- The bucket-name accumulation loop is the filterMap of last tokens. -/
theorem foldl_lastToken (l : List String) (acc : List String) :
    l.foldl (fun acc line =>
        match lastToken line with
        | some tok => acc ++ [tok]
        | none => acc) acc = acc ++ l.filterMap lastToken := by
  induction l generalizing acc with
  | nil => simp
  | cons x xs ih =>
      cases h : lastToken x <;>
        simp [h, ih, List.filterMap_cons]

/-- A line not containing the tag-keys marker neither reaches the tag-keys
cursor nor grows the tag-keys accumulator. -/
theorem step_no_keys (st : ParseState) (x : String)
    (hx : pyContains (removeNewlines x) INSTANCE_TAG_KEYS_MARKER = false)
    (ht : st.res_type ≠ ResType.INSTANCE_TAG_KEYS) :
    (processLine st x).instance_tag_keys_list = st.instance_tag_keys_list ∧
      (processLine st x).res_type ≠ ResType.INSTANCE_TAG_KEYS := by
  simp only [processLine]
  split_ifs with b1 b2 b3 b4 b5
  · exact ⟨rfl, ht⟩
  · exact ⟨rfl, by simp⟩
  · rw [hx] at b3
    exact absurd b3 (by simp)
  · exact ⟨rfl, by simp⟩
  · exact ⟨rfl, by simp⟩
  · cases h : st.res_type
    · exact ⟨rfl, by simp⟩
    · exact absurd h ht
    · exact ⟨rfl, by simp⟩
    · exact ⟨rfl, by simp⟩

/-- A line not containing the tag-values marker neither reaches the
tag-values cursor nor grows the tag-values accumulator. -/
theorem step_no_values (st : ParseState) (x : String)
    (hx : pyContains (removeNewlines x) INSTANCE_TAG_VALUES_MARKER = false)
    (ht : st.res_type ≠ ResType.INSTANCE_TAG_VALUES) :
    (processLine st x).instance_tag_values_list = st.instance_tag_values_list ∧
      (processLine st x).res_type ≠ ResType.INSTANCE_TAG_VALUES := by
  simp only [processLine]
  split_ifs with b1 b2 b3 b4 b5
  · exact ⟨rfl, ht⟩
  · exact ⟨rfl, by simp⟩
  · exact ⟨rfl, by simp⟩
  · rw [hx] at b4
    exact absurd b4 (by simp)
  · exact ⟨rfl, by simp⟩
  · cases h : st.res_type
    · exact ⟨rfl, by simp⟩
    · exact ⟨rfl, by simp⟩
    · exact absurd h ht
    · exact ⟨rfl, by simp⟩

/-- A line not containing the bucket-names marker neither reaches the
bucket-names cursor nor grows the bucket-names collection. -/
theorem step_no_buckets (st : ParseState) (x : String)
    (hx : pyContains (removeNewlines x) BUCKET_NAMES_MARKER = false)
    (ht : st.res_type ≠ ResType.BUCKET_NAMES) :
    (processLine st x).bucket_names = st.bucket_names ∧
      (processLine st x).res_type ≠ ResType.BUCKET_NAMES := by
  simp only [processLine]
  split_ifs with b1 b2 b3 b4 b5
  · exact ⟨rfl, ht⟩
  · exact ⟨rfl, by simp⟩
  · exact ⟨rfl, by simp⟩
  · exact ⟨rfl, by simp⟩
  · rw [hx] at b5
    exact absurd b5 (by simp)
  · cases h : st.res_type
    · exact ⟨rfl, by simp⟩
    · exact ⟨rfl, by simp⟩
    · exact ⟨rfl, by simp⟩
    · exact absurd h ht

theorem foldl_no_keys (lines : List String) (st : ParseState)
    (h : ∀ l ∈ lines, pyContains (removeNewlines l) INSTANCE_TAG_KEYS_MARKER = false)
    (ht : st.res_type ≠ ResType.INSTANCE_TAG_KEYS) :
    (lines.foldl processLine st).instance_tag_keys_list = st.instance_tag_keys_list ∧
      (lines.foldl processLine st).res_type ≠ ResType.INSTANCE_TAG_KEYS := by
  induction lines generalizing st with
  | nil => exact ⟨rfl, ht⟩
  | cons x xs ih =>
      obtain ⟨e1, e2⟩ := step_no_keys st x (h x (List.mem_cons_self x xs)) ht
      obtain ⟨f1, f2⟩ :=
        ih (processLine st x) (fun l hl => h l (List.mem_cons_of_mem x hl)) e2
      exact ⟨by rw [List.foldl_cons, f1, e1], by rw [List.foldl_cons]; exact f2⟩

theorem foldl_no_values (lines : List String) (st : ParseState)
    (h : ∀ l ∈ lines, pyContains (removeNewlines l) INSTANCE_TAG_VALUES_MARKER = false)
    (ht : st.res_type ≠ ResType.INSTANCE_TAG_VALUES) :
    (lines.foldl processLine st).instance_tag_values_list =
        st.instance_tag_values_list ∧
      (lines.foldl processLine st).res_type ≠ ResType.INSTANCE_TAG_VALUES := by
  induction lines generalizing st with
  | nil => exact ⟨rfl, ht⟩
  | cons x xs ih =>
      obtain ⟨e1, e2⟩ := step_no_values st x (h x (List.mem_cons_self x xs)) ht
      obtain ⟨f1, f2⟩ :=
        ih (processLine st x) (fun l hl => h l (List.mem_cons_of_mem x hl)) e2
      exact ⟨by rw [List.foldl_cons, f1, e1], by rw [List.foldl_cons]; exact f2⟩

theorem foldl_no_buckets (lines : List String) (st : ParseState)
    (h : ∀ l ∈ lines, pyContains (removeNewlines l) BUCKET_NAMES_MARKER = false)
    (ht : st.res_type ≠ ResType.BUCKET_NAMES) :
    (lines.foldl processLine st).bucket_names = st.bucket_names ∧
      (lines.foldl processLine st).res_type ≠ ResType.BUCKET_NAMES := by
  induction lines generalizing st with
  | nil => exact ⟨rfl, ht⟩
  | cons x xs ih =>
      obtain ⟨e1, e2⟩ := step_no_buckets st x (h x (List.mem_cons_self x xs)) ht
      obtain ⟨f1, f2⟩ :=
        ih (processLine st x) (fun l hl => h l (List.mem_cons_of_mem x hl)) e2
      exact ⟨by rw [List.foldl_cons, f1, e1], by rw [List.foldl_cons]; exact f2⟩

/-- Over a block of marker-free lines from the instance-ids cursor, the loop
appends exactly the stripped non-blank lines to the instance ids. -/
theorem foldl_no_marker_ids (pre : List String) (st : ParseState)
    (h : ∀ l ∈ pre, isMarkerLine (removeNewlines l) = false)
    (ht : st.res_type = ResType.INSTANCE_IDS) :
    pre.foldl processLine st =
      { st with instance_ids := st.instance_ids ++ cleanLines pre } := by
  induction pre generalizing st with
  | nil => simp [cleanLines]
  | cons x xs ih =>
      have hx := h x (List.mem_cons_self x xs)
      simp only [isMarkerLine, Bool.or_eq_false_iff] at hx
      obtain ⟨⟨⟨hx1, hx2⟩, hx3⟩, hx4⟩ := hx
      by_cases hb : pyBlank (removeNewlines x) = true
      · have hstep : processLine st x = st := by
          simp only [processLine]
          rw [if_pos hb]
        rw [List.foldl_cons, hstep,
          ih st (fun l hl => h l (List.mem_cons_of_mem x hl)) ht]
        simp [cleanLines, hb]
      · have hstep : processLine st x =
            { st with instance_ids := st.instance_ids ++ [removeNewlines x] } := by
          simp [processLine, hb, hx1, hx2, hx3, hx4, ht]
        rw [List.foldl_cons, hstep,
          ih { st with instance_ids := st.instance_ids ++ [removeNewlines x] }
            (fun l hl => h l (List.mem_cons_of_mem x hl)) ht]
        simp [cleanLines, hb, List.append_assoc]

/-- The loop only ever appends to the instance-id list. -/
theorem foldl_ids_mono (lines : List String) (st : ParseState) :
    ∃ tail, (lines.foldl processLine st).instance_ids = st.instance_ids ++ tail := by
  induction lines generalizing st with
  | nil => exact ⟨[], by simp⟩
  | cons x xs ih =>
      obtain ⟨t1, e1⟩ := ih (processLine st x)
      have hstep : ∃ t0, (processLine st x).instance_ids = st.instance_ids ++ t0 := by
        simp only [processLine]
        split_ifs
        · exact ⟨[], by simp⟩
        · exact ⟨[], by simp⟩
        · exact ⟨[], by simp⟩
        · exact ⟨[], by simp⟩
        · exact ⟨[], by simp⟩
        · cases h : st.res_type
          · exact ⟨[removeNewlines x], rfl⟩
          · exact ⟨[], by simp⟩
          · exact ⟨[], by simp⟩
          · exact ⟨[], by simp⟩
      obtain ⟨t0, e0⟩ := hstep
      exact ⟨t0 ++ t1, by rw [List.foldl_cons, e1, e0, List.append_assoc]⟩

/-! ### Claims -/

/-- C1, counterexample: the round-trip claim fails as stated.  The store
`exMarkerId` has non-empty instance ids and bucket names, every stored
string is printable without embedded newlines, and its tag sets are
(trivially) arbitrary, yet saving and reloading does not return the original
instance-id sequence: the id `"[bucket names]"` is parsed as a section
marker and lost. -/
theorem C1_counterexample :
    exMarkerId.instance_ids ≠ [] ∧ exMarkerId.bucket_names ≠ [] ∧
      (∀ l ∈ exMarkerId.instance_ids, printable l = true ∧ noNewline l = true) ∧
      (∀ l ∈ exMarkerId.bucket_names, printable l = true ∧ noNewline l = true) ∧
      (refresh_resources_from_file exMarkerId
          (save_resources_to_file exMarkerId)).instance_ids ≠
        exMarkerId.instance_ids := by
  decide

/-- C1, amended: for every store whose instance ids and bucket names are
non-empty and all of whose stored strings (ids, tag keys, tag values, bucket
names) contain no newline, are not whitespace-only, and contain none of the
four section markers as a substring, `save_resources_to_file` followed by
`refresh_resources_from_file` restores the instance-id and bucket-name
sequences exactly (order preserved) and the tag-key and tag-value
collections as sets. -/
theorem C1_round_trip (self : AwsResources)
    (hids : self.instance_ids ≠ []) (hbuckets : self.bucket_names ≠ [])
    (h1 : ∀ l ∈ self.instance_ids, cleanEntry l = true)
    (h2 : ∀ l ∈ self.instance_tag_keys, cleanEntry l = true)
    (h3 : ∀ l ∈ self.instance_tag_values, cleanEntry l = true)
    (h4 : ∀ l ∈ self.bucket_names, cleanEntry l = true) :
    (refresh_resources_from_file self (save_resources_to_file self)).instance_ids =
        self.instance_ids ∧
      (refresh_resources_from_file self
          (save_resources_to_file self)).instance_tag_keys.toFinset =
        self.instance_tag_keys.toFinset ∧
      (refresh_resources_from_file self
          (save_resources_to_file self)).instance_tag_values.toFinset =
        self.instance_tag_values.toFinset ∧
      (refresh_resources_from_file self (save_resources_to_file self)).bucket_names =
        self.bucket_names := by
  have hclean : ∀ l ∈ saveLines self, noNewline l = true := by
    intro l hl
    simp only [saveLines, List.mem_append, List.mem_singleton] at hl
    rcases hl with (((((((rfl | hl) | rfl) | hl) | rfl) | hl) | rfl) | hl)
    · decide
    · exact (cleanEntry_parts l (h1 l hl)).1
    · decide
    · exact (cleanEntry_parts l (h2 l hl)).1
    · decide
    · exact (cleanEntry_parts l (h3 l hl)).1
    · decide
    · exact (cleanEntry_parts l (h4 l hl)).1
  have hsplit := splitLines_save self hclean
  have hfold := foldl_saveLines self h1 h2 h3 h4
  simp only [refresh_resources_from_file, hsplit, hfold]
  exact ⟨trivial, dedup_toFinset _, dedup_toFinset _, trivial⟩

/-- Witness for C1: the amended round trip at a concrete store. -/
theorem C1_round_trip_witness :
    (refresh_resources_from_file exStore (save_resources_to_file exStore)).instance_ids =
        exStore.instance_ids ∧
      (refresh_resources_from_file exStore
          (save_resources_to_file exStore)).instance_tag_keys.toFinset =
        exStore.instance_tag_keys.toFinset ∧
      (refresh_resources_from_file exStore
          (save_resources_to_file exStore)).instance_tag_values.toFinset =
        exStore.instance_tag_values.toFinset ∧
      (refresh_resources_from_file exStore (save_resources_to_file exStore)).bucket_names =
        exStore.bucket_names :=
  C1_round_trip exStore (by decide) (by decide) (by decide) (by decide) (by decide)
    (by decide)

/-- C2: for a non-blank newline-free line, the read loop switches the cursor
and discards the line exactly when the line contains one of the four marker
strings (`markerTarget` is the first matching marker of the source's elif
chain); otherwise it appends the raw line to the collection selected by the
current cursor (`appendData`). -/
theorem C2_line_dispatch (st : ParseState) (line : String)
    (hnl : noNewline line = true) (hb : pyBlank line = false) :
    (∀ t, markerTarget line = some t →
        processLine st line = { st with res_type := t }) ∧
      (markerTarget line = none → processLine st line = appendData st line) := by
  have hid := removeNewlines_id line hnl
  constructor
  · intro t ht
    simp only [markerTarget] at ht
    split_ifs at ht with c1 c2 c3 c4
    · injection ht with ht
      subst ht
      simp [processLine, hid, hb, c1]
    · injection ht with ht
      subst ht
      simp [processLine, hid, hb, c1, c2]
    · injection ht with ht
      subst ht
      simp [processLine, hid, hb, c1, c2, c3]
    · injection ht with ht
      subst ht
      simp [processLine, hid, hb, c1, c2, c3, c4]
  · intro ht
    simp only [markerTarget] at ht
    split_ifs at ht with c1 c2 c3 c4
    simp [processLine, hid, hb, c1, c2, c3, c4, appendData]

/-- Witness for C2: a marker line switches the cursor and is discarded; a
data line is appended to the current cursor's collection. -/
theorem C2_line_dispatch_witness :
    processLine initParseState "[bucket names]" =
        { initParseState with res_type := ResType.BUCKET_NAMES } ∧
      processLine initParseState "i-1" = appendData initParseState "i-1" :=
  ⟨(C2_line_dispatch initParseState "[bucket names]" (by decide) (by decide)).1
      ResType.BUCKET_NAMES (by decide),
    (C2_line_dispatch initParseState "i-1" (by decide) (by decide)).2 (by decide)⟩

/-- C4: with `force_refresh = false` and a readable cache file, `refresh` is
exactly a load from the file: no provider query runs, and every one of the
four collections is replaced by the file's content, regardless of the
store's prior collections and of its refresh flags (second conjunct). -/
theorem C4_cache_load (self : AwsResources) (env : Env) (content : String)
    (h : env.cache_file = some content) :
    refresh self env false = refresh_resources_from_file self content ∧
      ∀ other : AwsResources,
        (refresh self env false).instance_ids =
            (refresh other env false).instance_ids ∧
          (refresh self env false).instance_tag_keys =
            (refresh other env false).instance_tag_keys ∧
          (refresh self env false).instance_tag_values =
            (refresh other env false).instance_tag_values ∧
          (refresh self env false).bucket_names =
            (refresh other env false).bucket_names := by
  constructor
  · simp [refresh, h]
  · intro other
    simp [refresh, h, refresh_resources_from_file]

/-- Witness for C4: cache load at a concrete store and environment. -/
theorem C4_cache_load_witness :
    refresh exStore exEnvCache false = refresh_resources_from_file exStore exContent ∧
      ∀ other : AwsResources,
        (refresh exStore exEnvCache false).instance_ids =
            (refresh other exEnvCache false).instance_ids ∧
          (refresh exStore exEnvCache false).instance_tag_keys =
            (refresh other exEnvCache false).instance_tag_keys ∧
          (refresh exStore exEnvCache false).instance_tag_values =
            (refresh other exEnvCache false).instance_tag_values ∧
          (refresh exStore exEnvCache false).bucket_names =
            (refresh other exEnvCache false).bucket_names :=
  C4_cache_load exStore exEnvCache exContent rfl

/-- C7: when the provider command of `query_instance_ids`,
`query_instance_tag_keys` or `query_instance_tag_values` raises, the
operation leaves the whole store — in particular the corresponding
collection — exactly at its previous value, for every prior store state. -/
theorem C7_query_failure_no_change (self : AwsResources) :
    query_instance_ids self none = self ∧
      query_instance_tag_keys self none = self ∧
      query_instance_tag_values self none = self :=
  ⟨rfl, rfl, rfl⟩

/-- C5: a forced refresh never reads the cache file — the result is
identical for every cache-file content (second conjunct) — and with a
bucket stub returning `b-new` the final bucket list is exactly `["b-new"]`,
regardless of the prior in-memory state (in particular never
`["b-old", "b-new"]`). -/
theorem C5_force_refresh_bypass (self : AwsResources) (env : Env)
    (hflag : self.refresh_bucket_names = true)
    (hout : env.bucket_names_output = some "b-new") :
    (refresh self env true).bucket_names = ["b-new"] ∧
      ∀ c, refresh self { env with cache_file := c } true = refresh self env true := by
  refine ⟨?_, fun c => rfl⟩
  show (run_queries self env).bucket_names = ["b-new"]
  rcases env with ⟨cf, io, ko, vo, bo⟩
  obtain rfl : bo = some "b-new" := hout
  unfold run_queries
  by_cases h1 : self.refresh_instance_ids <;> by_cases h2 : self.refresh_instance_tags <;>
    cases io <;> cases ko <;> cases vo <;>
      simp [h1, h2, hflag, query_instance_ids, query_instance_tag_keys,
        query_instance_tag_values, query_bucket_names] <;>
      decide

/-- Witness for C5: force-refresh bypass at a concrete store and
environment whose cache file holds bucket `b-old`. -/
theorem C5_force_refresh_bypass_witness :
    (refresh exStore exEnvForce true).bucket_names = ["b-new"] ∧
      refresh exStore { exEnvForce with cache_file := none } true =
        refresh exStore exEnvForce true :=
  ⟨(C5_force_refresh_bypass exStore exEnvForce rfl rfl).1,
    (C5_force_refresh_bypass exStore exEnvForce rfl rfl).2 none⟩

/-- C6: in a forced refresh with every flag enabled, if the tag-keys command
raises while the instance-ids and bucket-names commands succeed, the
instance ids and bucket names are still replaced with the parsed results of
their queries, and the file the final save writes still has all four marker
sections. -/
theorem C6_partial_failure (self : AwsResources) (env : Env)
    (hf1 : self.refresh_instance_ids = true)
    (hf2 : self.refresh_instance_tags = true)
    (hf3 : self.refresh_bucket_names = true)
    (o1 : String) (hids : env.ids_output = some o1)
    (hkeys : env.tag_keys_output = none)
    (o2 : String) (hb : env.bucket_names_output = some o2) :
    (refresh self env true).instance_ids = parse_instance_ids_output o1 ∧
      (refresh self env true).bucket_names = parse_bucket_names_output o2 ∧
      ∃ A B C D, splitLines (save_resources_to_file (refresh self env true)) =
        [INSTANCE_IDS_MARKER] ++ A ++ [INSTANCE_TAG_KEYS_MARKER] ++ B
          ++ [INSTANCE_TAG_VALUES_MARKER] ++ C ++ [BUCKET_NAMES_MARKER] ++ D := by
  refine ⟨?_, ?_, save_four_sections _⟩
  · show (run_queries self env).instance_ids = _
    rcases env with ⟨cf, io, ko, vo, bo⟩
    obtain rfl : io = some o1 := hids
    obtain rfl : ko = none := hkeys
    obtain rfl : bo = some o2 := hb
    cases vo <;>
      simp [run_queries, hf1, hf2, hf3, query_instance_ids, query_instance_tag_keys,
        query_instance_tag_values, query_bucket_names]
  · show (run_queries self env).bucket_names = _
    rcases env with ⟨cf, io, ko, vo, bo⟩
    obtain rfl : io = some o1 := hids
    obtain rfl : ko = none := hkeys
    obtain rfl : bo = some o2 := hb
    cases vo <;>
      simp [run_queries, hf1, hf2, hf3, query_instance_ids, query_instance_tag_keys,
        query_instance_tag_values, query_bucket_names]

/-- Witness for C6: partial-failure isolation at a concrete store and
environment whose tag-keys command raises. -/
theorem C6_partial_failure_witness :
    (refresh exStore exEnvPartial true).instance_ids =
        parse_instance_ids_output "i-1\ni-2\n" ∧
      (refresh exStore exEnvPartial true).bucket_names =
        parse_bucket_names_output "2026-01-01 b-new" ∧
      ∃ A B C D, splitLines (save_resources_to_file (refresh exStore exEnvPartial true)) =
        [INSTANCE_IDS_MARKER] ++ A ++ [INSTANCE_TAG_KEYS_MARKER] ++ B
          ++ [INSTANCE_TAG_VALUES_MARKER] ++ C ++ [BUCKET_NAMES_MARKER] ++ D :=
  C6_partial_failure exStore exEnvPartial rfl rfl rfl "i-1\ni-2\n" rfl rfl
    "2026-01-01 b-new" rfl

/-- C8: a failing bucket-listing command leaves the store — in particular
`bucket_names` — untouched; a succeeding one rebuilds `bucket_names` from
scratch as a function of the output alone, taking the last
whitespace-delimited token of each output line and silently skipping lines
from which no token can be extracted, and yields the empty list for empty
output. -/
theorem C8_bucket_query_policy (self : AwsResources) :
    query_bucket_names self none = self ∧
      (∀ out, (query_bucket_names self (some out)).bucket_names =
        parse_bucket_names_output out) ∧
      (∀ out, parse_bucket_names_output out =
        (pySplitOn out '\n').filterMap lastToken) ∧
      (query_bucket_names self (some "")).bucket_names = [] := by
  refine ⟨rfl, fun out => rfl, fun out => ?_,
    (by decide : parse_bucket_names_output "" = [])⟩
  rw [parse_bucket_names_output, foldl_lastToken]
  rfl

/-- C9: when every stored entry is newline-free, the saved file consists
exactly of, in fixed order: the instance-ids marker and one line per id,
the tag-keys marker and one line per key, the tag-values marker and one line
per value, and the bucket-names marker and one line per bucket — no
trailing markers and no blank separator lines (the one final empty chunk is
the artifact of the file ending in the last entry's newline). -/
theorem C9_save_layout (self : AwsResources)
    (h1 : ∀ l ∈ self.instance_ids, noNewline l = true)
    (h2 : ∀ l ∈ self.instance_tag_keys, noNewline l = true)
    (h3 : ∀ l ∈ self.instance_tag_values, noNewline l = true)
    (h4 : ∀ l ∈ self.bucket_names, noNewline l = true) :
    splitLines (save_resources_to_file self) =
      [INSTANCE_IDS_MARKER] ++ self.instance_ids
        ++ [INSTANCE_TAG_KEYS_MARKER] ++ self.instance_tag_keys
        ++ [INSTANCE_TAG_VALUES_MARKER] ++ self.instance_tag_values
        ++ [BUCKET_NAMES_MARKER] ++ self.bucket_names ++ [""] := by
  have hclean : ∀ l ∈ saveLines self, noNewline l = true := by
    intro l hl
    simp only [saveLines, List.mem_append, List.mem_singleton] at hl
    rcases hl with (((((((rfl | hl) | rfl) | hl) | rfl) | hl) | rfl) | hl)
    · decide
    · exact h1 l hl
    · decide
    · exact h2 l hl
    · decide
    · exact h3 l hl
    · decide
    · exact h4 l hl
  rw [splitLines_save self hclean]
  simp [saveLines, List.append_assoc]

/-- Witness for C9: the save layout at a concrete store. -/
theorem C9_save_layout_witness :
    splitLines (save_resources_to_file exStore) =
      [INSTANCE_IDS_MARKER] ++ exStore.instance_ids
        ++ [INSTANCE_TAG_KEYS_MARKER] ++ exStore.instance_tag_keys
        ++ [INSTANCE_TAG_VALUES_MARKER] ++ exStore.instance_tag_values
        ++ [BUCKET_NAMES_MARKER] ++ exStore.bucket_names ++ [""] :=
  C9_save_layout exStore (by decide) (by decide) (by decide) (by decide)

/-- C10: on a successful tag command the stored set is exactly the set of
chunks of the raw output split on tab characters only (so a chunk adjacent
to the output's final newline keeps that newline); in particular the stored
set is never empty, and a command succeeding with empty output stores the
singleton set of the empty string. -/
theorem C10_tag_split_semantics (self : AwsResources) (out : String) :
    (query_instance_tag_keys self (some out)).instance_tag_keys.toFinset =
        (pySplitOn out '\t').toFinset ∧
      (query_instance_tag_values self (some out)).instance_tag_values.toFinset =
        (pySplitOn out '\t').toFinset ∧
      (query_instance_tag_keys self (some out)).instance_tag_keys ≠ [] ∧
      (query_instance_tag_values self (some out)).instance_tag_values ≠ [] ∧
      (query_instance_tag_keys self (some "")).instance_tag_keys = [""] ∧
      (query_instance_tag_keys self (some "env\tprod\n")).instance_tag_keys =
        ["env", "prod\n"] := by
  have hne : parse_tag_output out ≠ [] := by
    rw [parse_tag_output, Ne, List.dedup_eq_nil]
    intro hnil
    have h2 := List.splitOnP_ne_nil (· == '\t') out.data
    rw [pySplitOn, List.splitOn] at hnil
    exact h2 (List.map_eq_nil_iff.mp hnil)
  exact ⟨dedup_toFinset _, dedup_toFinset _, hne, hne,
    (by decide : parse_tag_output "" = [""]),
    (by decide : parse_tag_output "env\tprod\n" = ["env", "prod\n"])⟩

/-- C3: loading a cache file never raises (it is a total function here);
when no line of the file contains a given non-default section marker, the
corresponding collection comes back empty; and every data line before the
first marker line is attributed, in order, to the instance-ids category
(the default initial cursor), as a prefix of the loaded instance ids. -/
theorem C3_marker_robustness (self : AwsResources) (content : String) :
    ((∀ l ∈ splitLines content, pyContains l INSTANCE_TAG_KEYS_MARKER = false) →
        (refresh_resources_from_file self content).instance_tag_keys = []) ∧
      ((∀ l ∈ splitLines content, pyContains l INSTANCE_TAG_VALUES_MARKER = false) →
        (refresh_resources_from_file self content).instance_tag_values = []) ∧
      ((∀ l ∈ splitLines content, pyContains l BUCKET_NAMES_MARKER = false) →
        (refresh_resources_from_file self content).bucket_names = []) ∧
      (∀ pre rest, splitLines content = pre ++ rest →
        (∀ l ∈ pre, isMarkerLine l = false) →
        ∃ tail, (refresh_resources_from_file self content).instance_ids =
          cleanLines pre ++ tail) := by
  have hnl := splitLines_noNewline content
  refine ⟨?_, ?_, ?_, ?_⟩
  · intro h
    have h' : ∀ l ∈ splitLines content,
        pyContains (removeNewlines l) INSTANCE_TAG_KEYS_MARKER = false := by
      intro l hl
      rw [removeNewlines_id l (hnl l hl)]
      exact h l hl
    have hk := foldl_no_keys (splitLines content) initParseState h' (by simp [initParseState])
    simp only [refresh_resources_from_file]
    rw [hk.1]
    rfl
  · intro h
    have h' : ∀ l ∈ splitLines content,
        pyContains (removeNewlines l) INSTANCE_TAG_VALUES_MARKER = false := by
      intro l hl
      rw [removeNewlines_id l (hnl l hl)]
      exact h l hl
    have hk := foldl_no_values (splitLines content) initParseState h' (by simp [initParseState])
    simp only [refresh_resources_from_file]
    rw [hk.1]
    rfl
  · intro h
    have h' : ∀ l ∈ splitLines content,
        pyContains (removeNewlines l) BUCKET_NAMES_MARKER = false := by
      intro l hl
      rw [removeNewlines_id l (hnl l hl)]
      exact h l hl
    have hk := foldl_no_buckets (splitLines content) initParseState h' (by simp [initParseState])
    simp only [refresh_resources_from_file]
    rw [hk.1]
    rfl
  · intro pre rest hsplit hpre
    have hpre' : ∀ l ∈ pre, isMarkerLine (removeNewlines l) = false := by
      intro l hl
      rw [removeNewlines_id l (hnl l (hsplit ▸ List.mem_append_left rest hl))]
      exact hpre l hl
    have e2 := foldl_no_marker_ids pre initParseState hpre' rfl
    obtain ⟨tail, e3⟩ := foldl_ids_mono rest (pre.foldl processLine initParseState)
    refine ⟨tail, ?_⟩
    simp only [refresh_resources_from_file, hsplit, List.foldl_append]
    rw [e3, e2]
    simp [initParseState]

/-- Witness for C3: a concrete cache file missing the tag-keys and
tag-values markers yields empty tag collections, one missing the
bucket-names marker yields empty buckets, and the data lines before the
first marker land in the instance ids. -/
theorem C3_marker_robustness_witness :
    (refresh_resources_from_file exStore exContent).instance_tag_keys = [] ∧
      (refresh_resources_from_file exStore exContent).instance_tag_values = [] ∧
      (refresh_resources_from_file exStore "i-1\n").bucket_names = [] ∧
      ∃ tail, (refresh_resources_from_file exStore exContent).instance_ids =
        cleanLines ["i-1", ""] ++ tail :=
  ⟨(C3_marker_robustness exStore exContent).1 (by decide),
    (C3_marker_robustness exStore exContent).2.1 (by decide),
    (C3_marker_robustness exStore "i-1\n").2.2.1 (by decide),
    (C3_marker_robustness exStore exContent).2.2.2 ["i-1", ""]
      ["[bucket names]", "b-old", ""] (by decide) (by decide)⟩

end Saws
